import Mathlib

/-!
Verification of the backtesting core of the GOOGLEai trading-bot repository.

The JavaScript sources are shallowly embedded: prices and sizes are rationals
(ℚ), timestamps are integers, JS `null`/`undefined` propagation is made
explicit with `Option`, and a computation that would throw a `TypeError`
(property access on `undefined`) is modelled as `none`/`Option` failure at the
corresponding access.  The mutable simulation loops of `backtest.js` and
`backtestRunner.js` become folds over explicit state.
-/

/-- One OHLCV bar, as produced by the data handlers (`timestamp` in integer
seconds, prices and volume as decimals).  The JS field `open` is rendered
`open_` because `open` is a Lean keyword. -/
structure Candle where
  timestamp : ℤ
  open_ : ℚ
  high : ℚ
  low : ℚ
  close : ℚ
  volume : ℚ
deriving DecidableEq

instance : Inhabited Candle := ⟨⟨0, 0, 0, 0, 0, 0⟩⟩

/-- JS `Math.round`: round half toward positive infinity. -/
def jround (x : ℚ) : ℤ := ⌊x + 1 / 2⌋

/-- JS `parseFloat(x.toFixed(4))` for the non-negative sizes this code rounds:
round to four decimal places. -/
def round4 (x : ℚ) : ℚ := (⌊x * 10000 + 1 / 2⌋ : ℚ) / 10000

/-- The object produced by `StrategyEngine.generateSignal`
(`src/strategyEngine.js`, local-indicator variant) and consumed by
`backtest.js` / `riskManager.js`.  `confidence` and
`stop_loss_distance_in_usd` are `Option ℚ` because the oracle's parsed JSON
may lack them (JS `undefined`). -/
structure TradingSignal where
  signal : String
  confidence : Option ℚ
  reason : String
  stop_loss_distance_in_usd : Option ℚ
deriving DecidableEq

/-- Constructor configuration of `RiskManager` (`src/riskManager.js`). -/
structure RMConfig where
  leverage : ℚ
  takeProfitMultiplier : ℚ
  marginBuffer : ℚ
deriving DecidableEq

/-- `new RiskManager({ leverage: 10, marginBuffer: 0.01 })` as constructed by
`backtest.js`; `takeProfitMultiplier` defaults to 3.0. -/
def cfgBacktest : RMConfig := ⟨10, 3, 1 / 100⟩

/-- The trade-parameter object returned by
`RiskManager.calculateTradeParameters`.  `stopLoss`/`takeProfit` carry the
`Math.round`ed integer prices as rationals. -/
structure TradeParams where
  size : ℚ
  stopLoss : ℚ
  takeProfit : ℚ
deriving DecidableEq

/-- `RiskManager.calculateTradeParameters` (`src/riskManager.js`, lines
19-75).  The source reads `ohlc[ohlc.length - 1].close` before any guard, so
an empty series is a thrown `TypeError`, modelled as `none` at the very first
match.  `!stop_loss_distance_in_usd || stop_loss_distance_in_usd <= 0`
collapses to the `none`-or-nonpositive test below (JS `!0` is `true` and is
subsumed by `d ≤ 0`). -/
def calculateTradeParameters (cfg : RMConfig) (balance : ℚ) (ohlc : List Candle)
    (sig : TradingSignal) : Option TradeParams :=
  match ohlc.getLast? with
  | none => none
  | some lc =>
    let lastPrice := lc.close
    if sig.signal = "HOLD" then none
    else
      match sig.stop_loss_distance_in_usd with
      | none => none
      | some stopLossDistance =>
        if stopLossDistance ≤ 0 then none
        else if balance ≤ 0 then none
        else
          let desiredNotionalValueUSD := balance * cfg.leverage
          let bufferedNotionalValueUSD := desiredNotionalValueUSD * (1 - cfg.marginBuffer)
          if lastPrice ≤ 0 then none
          else
            let positionSizeInBTC := bufferedNotionalValueUSD / lastPrice
            if positionSizeInBTC ≤ 0 then none
            else
              let rawStopLossPrice :=
                if sig.signal = "LONG" then lastPrice - stopLossDistance
                else lastPrice + stopLossDistance
              let rawTakeProfitPrice :=
                if sig.signal = "LONG" then
                  lastPrice + stopLossDistance * cfg.takeProfitMultiplier
                else lastPrice - stopLossDistance * cfg.takeProfitMultiplier
              some { size := round4 positionSizeInBTC,
                     stopLoss := (jround rawStopLossPrice : ℚ),
                     takeProfit := (jround rawTakeProfitPrice : ℚ) }

/-- A simulated trade as recorded by `BacktestExecutionHandler.placeOrder`
(`src/backtestExecutionHandler.js`, lines 17-34). -/
structure Trade where
  entryTime : ℤ
  entryPrice : ℚ
  signal : String
  size : ℚ
  stopLoss : ℚ
  takeProfit : ℚ
  status : String
  exitTime : Option ℤ
  exitPrice : Option ℚ
  pnl : ℚ
deriving DecidableEq

/-- `BacktestExecutionHandler.getOpenTrade`:
`this.trades.find(t => t.status === 'open')`. -/
def getOpenTrade (trades : List Trade) : Option Trade :=
  trades.find? (fun t => t.status == "open")

/-- `BacktestExecutionHandler.placeOrder`: append a fresh trade with
`status: 'open'`, `exitTime: null`, `exitPrice: null`, `pnl: 0`. -/
def placeOrder (trades : List Trade) (signal : String) (params : TradeParams)
    (entryPrice : ℚ) (entryTime : ℤ) : List Trade :=
  trades ++ [{ entryTime := entryTime, entryPrice := entryPrice, signal := signal,
               size := params.size, stopLoss := params.stopLoss,
               takeProfit := params.takeProfit, status := "open",
               exitTime := none, exitPrice := none, pnl := 0 }]

/-- The exit-price determination of `src/backtest.js` lines 39-55 (and,
identically, `BacktestRunner._checkTradeExit`): an `if/else-if` chain in which
the stop-loss test runs before the take-profit test for either direction.
Returns the value left in `exitPrice` together with `exitReason`. -/
def evalExit (c : Candle) (t : Trade) : Option (ℚ × String) :=
  if t.signal = "LONG" then
    if c.low ≤ t.stopLoss then some (t.stopLoss, "Stop-Loss")
    else if t.takeProfit ≤ c.high then some (t.takeProfit, "Take-Profit")
    else none
  else if t.signal = "SHORT" then
    if t.stopLoss ≤ c.high then some (t.stopLoss, "Stop-Loss")
    else if c.low ≤ t.takeProfit then some (t.takeProfit, "Take-Profit")
    else none
  else none

/-- The exit-price determination of `src/unnamed/part_004` lines 129-132:
four INDEPENDENT `if` statements (no `else`), so a later assignment to
`exitPrice` overwrites an earlier one.  In particular, on a LONG bar where
both levels trigger, the take-profit assignment overwrites the stop-loss
assignment. -/
def exitAssignSequential (c : Candle) (t : Trade) : Option ℚ :=
  let e1 : Option ℚ :=
    if t.signal = "LONG" ∧ c.low ≤ t.stopLoss then some t.stopLoss else none
  let e2 := if t.signal = "LONG" ∧ t.takeProfit ≤ c.high then some t.takeProfit else e1
  let e3 := if t.signal = "SHORT" ∧ t.stopLoss ≤ c.high then some t.stopLoss else e2
  let e4 := if t.signal = "SHORT" ∧ c.low ≤ t.takeProfit then some t.takeProfit else e3
  e4

/-- In-place mutation of the open trade found by `getOpenTrade` during a
close (`src/backtest.js` lines 61-64): since the JS object is aliased into
`this.trades`, this is an update of the first list element whose status is
`open`. -/
def updateFirstOpen : List Trade → (Trade → Trade) → List Trade
  | [], _ => []
  | t :: ts, f => if t.status == "open" then f t :: ts else t :: updateFirstOpen ts f

/-- The field updates applied to the open trade when it closes
(`src/backtest.js` lines 61-64). -/
def closeUpdate (c : Candle) (px pnl : ℚ) (t : Trade) : Trade :=
  { t with status := "closed", exitPrice := some px,
           exitTime := some c.timestamp, pnl := pnl }

/-- The state threaded through the `backtest.js` simulation loop: the
execution handler's trade log and `simulatedAccount.balance`. -/
structure SimState where
  trades : List Trade
  balance : ℚ
deriving DecidableEq

/-- `src/backtest.js` lines 35-69: if a trade is open, evaluate the exit
levels against the current candle; the close itself is guarded by JS
truthiness (`if (exitPrice)`), so an exit price of exactly `0` does NOT close
the trade. -/
def checkClose (c : Candle) (s : SimState) : SimState :=
  match getOpenTrade s.trades with
  | none => s
  | some t =>
    match evalExit c t with
    | none => s
    | some (px, _) =>
      if px ≠ 0 then
        let pnl := (px - t.entryPrice) * t.size * (if t.signal = "LONG" then 1 else -1)
        { trades := updateFirstOpen s.trades (closeUpdate c px pnl),
          balance := s.balance + pnl }
      else s

/-- The JS comparison `confidence >= threshold`, which is false when
`confidence` is `undefined` (NaN comparison). -/
def jsConfGe (confidence : Option ℚ) (thr : ℚ) : Bool :=
  match confidence with
  | some cf => decide (thr ≤ cf)
  | none => false

/-- `src/backtest.js` lines 71-87: open a new trade only when
`getOpenTrade()` returns nothing, the signal is not HOLD, confidence meets
the threshold, and risk sizing returns parameters with positive size. -/
def tryOpen (cfg : RMConfig) (thr : ℚ) (w : List Candle) (sig : TradingSignal)
    (s : SimState) : SimState :=
  match getOpenTrade s.trades with
  | some _ => s
  | none =>
    if sig.signal ≠ "HOLD" ∧ jsConfGe sig.confidence thr = true then
      match calculateTradeParameters cfg s.balance w sig with
      | some params =>
        if 0 < params.size then
          match w.getLast? with
          | some c => { s with trades := placeOrder s.trades sig.signal params c.close c.timestamp }
          | none => s
        else s
      | none => s
    else s

/-- One iteration of the `backtest.js` main loop on market data whose
`ohlc` window is `w` and whose oracle reply is `sig`: exit check first
(against `currentCandle`, the last element of the window), then the entry
attempt.  An empty window (never produced by the data handler) is a no-op
here; in JS it would throw. -/
def backtestStep (w : List Candle) (sig : TradingSignal) (s : SimState) : SimState :=
  match w.getLast? with
  | none => s
  | some c => tryOpen cfgBacktest 70 w sig (checkClose c s)

/-- `INITIAL_BALANCE` of `src/backtest.js`. -/
def INITIAL_BALANCE : ℚ := 10000

/-- The whole `backtest.js` simulation: fold the loop body over the sequence
of (window, oracle reply) pairs produced by the data handler and the
strategy engine, starting from an empty trade log and the initial balance.
The oracle reply is universally quantified data: `generateSignal` is an
external call whose result the loop merely consumes. -/
def runBacktest (steps : List (List Candle × TradingSignal)) : SimState :=
  steps.foldl (fun s p => backtestStep p.1 p.2 s) ⟨[], INITIAL_BALANCE⟩

/-- Number of trades currently marked open. -/
def countOpen (trades : List Trade) : ℕ :=
  (trades.filter (fun t => t.status == "open")).length

/-- Two archived positions overlap when their `[entryTime, exitTime]`
intervals share more than a boundary point. -/
def overlaps (a b : Trade) : Prop :=
  ∃ xa xb, a.exitTime = some xa ∧ b.exitTime = some xb ∧
    max a.entryTime b.entryTime < min xa xb

/-- The timestamps of the current candles of a step sequence (steps with an
empty window contribute nothing). -/
def stepTimes (steps : List (List Candle × TradingSignal)) : List ℤ :=
  steps.filterMap (fun p => p.1.getLast?.map Candle.timestamp)

/-- JS `x || 0` on a number: `0` stays `0`, everything else is itself. -/
def jsOrZero (x : ℚ) : ℚ := if x = 0 then 0 else x

/-- The true range computed inside the loop of `RiskManager._calculateATR`
(`src/unnamed/part_002`, lines 39-49) at index `i` of the series:
`prevClose = i > 0 ? ohlcData[i-1].close : high`. -/
def trueRangeAt (ohlcData : List Candle) (i : ℕ) : ℚ :=
  let c := (ohlcData.get? i).getD default
  let prevClose := if 0 < i then ((ohlcData.get? (i - 1)).getD default).close else c.high
  max (c.high - c.low) (max |c.high - prevClose| |c.low - prevClose|)

/-- `RiskManager._calculateATR` (`src/unnamed/part_002`, lines 32-53).  When
`ohlcData.length < period` the source reads
`ohlcData[ohlcData.length - 1].high`, which on an EMPTY array is a
`TypeError` (property access on `undefined`); that thrown error is the
`none` of the first branch.  Otherwise the loop runs `i` from
`length - period` to `length - 1` and the mean divides by the number of
collected true ranges. -/
def calculateATR (ohlcData : List Candle) (period : ℕ) : Option ℚ :=
  if ohlcData.length < period then
    match ohlcData.getLast? with
    | none => none
    | some c => some (jsOrZero (c.high - c.low))
  else
    let trueRanges := (List.range period).map
      (fun k => trueRangeAt ohlcData (ohlcData.length - period + k))
    some (trueRanges.sum / (trueRanges.length : ℚ))

/-- The claim's reading of a bar's true range, phrased over the bar and its
optional predecessor: `max(high-low, |high-prevClose|, |low-prevClose|)`,
`prevClose` falling back to the bar's own high when no prior bar exists. -/
def trueRangeSpec (prev : Option Candle) (c : Candle) : ℚ :=
  let prevClose := match prev with
    | some p => p.close
    | none => c.high
  max (c.high - c.low) (max |c.high - prevClose| |c.low - prevClose|)

/-- The claim's reading of the ATR: the arithmetic mean of the true ranges of
the last `period` bars, each paired with its predecessor in the full series. -/
def atrSpec (ohlcData : List Candle) (period : ℕ) : ℚ :=
  let paired := ohlcData.zip (none :: ohlcData.map some)
  let window := (paired.drop (ohlcData.length - period)).map
    (fun p => trueRangeSpec p.2 p.1)
  window.sum / (period : ℚ)

/-- The outcome of the generative-model call as seen by `generateSignal`
after response extraction: either a failure (transport error, empty response,
no JSON object in the text, or a JSON parse error — everything the `catch`
receives before validation) or a parsed value. -/
inductive OracleOutcome (α : Type) where
  | failure : OracleOutcome α
  | parsed : α → OracleOutcome α
deriving DecidableEq

/-- The validation applied by the local-indicator `StrategyEngine.generateSignal`
(`src/strategyEngine.js`, line 59): the signal string must be one of
LONG/SHORT/HOLD and `confidence` and `stop_loss_distance_in_usd` must be
numbers.  No range check is applied to the numeric fields. -/
def validStrategistData (d : TradingSignal) : Bool :=
  (d.signal == "LONG" || d.signal == "SHORT" || d.signal == "HOLD") &&
    d.confidence.isSome && d.stop_loss_distance_in_usd.isSome

/-- The HOLD object returned by the local-indicator `generateSignal` on its
guard and error paths. -/
def holdSignal (reason : String) : TradingSignal :=
  { signal := "HOLD", confidence := some 0, reason := reason,
    stop_loss_distance_in_usd := some 0 }

/-- The local-indicator `StrategyEngine.generateSignal`
(`src/strategyEngine.js`, lines 37-70), with the market-data emptiness check,
the indicator computation and the oracle call abstracted to inputs: invalid
market data and a `null` indicator result short-circuit to HOLD objects; an
oracle failure or a parsed value failing validation is caught and replaced by
the HOLD error object; a parsed value passing validation is returned as-is. -/
def generateSignal (hasOhlc : Bool) (indicatorData : Option Unit)
    (oracle : OracleOutcome TradingSignal) : TradingSignal :=
  if !hasOhlc then holdSignal ("Insufficient market data.")
  else
    match indicatorData with
    | none => holdSignal ("Could not calculate indicators.")
    | some _ =>
      match oracle with
      | .failure => holdSignal ("Failed to get a valid signal from the AI model.")
      | .parsed d =>
        if validStrategistData d then d
        else holdSignal ("Failed to get a valid signal from the AI model.")

/-- The parsed JSON consumed by `BacktestRunner` from the Chimera
`StrategyEngine.generateSignal` (`src/strategyEngine.js`, lines 138-173):
the code returns `JSON.parse(...)` without any field validation, so every
field may be absent. -/
structure ChimeraPlan where
  signal : Option String
  confidence : Option ℚ
  entry_price : Option ℚ
  stop_loss_price : Option ℚ
  take_profit_price : Option ℚ
  reason : Option String
deriving DecidableEq

/-- The bare `{ signal: 'HOLD' }` object returned by the Chimera
`generateSignal` on empty market data and on every error path: it has NO
`confidence` field. -/
def chimeraHold : ChimeraPlan :=
  { signal := some "HOLD", confidence := none, entry_price := none,
    stop_loss_price := none, take_profit_price := none, reason := none }

/-- The Chimera `StrategyEngine.generateSignal` (`src/strategyEngine.js`,
lines 138-173): missing 1h data or any oracle failure yields the bare HOLD
object; a successfully parsed JSON value is returned unvalidated. -/
def generateSignalChimera (hasOhlc1h : Bool)
    (oracle : OracleOutcome ChimeraPlan) : ChimeraPlan :=
  if !hasOhlc1h then chimeraHold
  else
    match oracle with
    | .failure => chimeraHold
    | .parsed d => d

/-- `delayNeededMs` of `src/backtest.js` line 199 (and
`src/backtestRunner.js` line 96): the rate-limit interval minus the elapsed
processing time, the oracle call's own latency included. -/
def delayNeededMs (minSecondsBetweenCalls processingTimeMs : ℚ) : ℚ :=
  minSecondsBetweenCalls * 1000 - processingTimeMs

/-- The wait actually performed by `src/backtest.js` lines 201-206 (and, for
the delay part, `src/backtestRunner.js` lines 97-100): sleep for
`delayNeededMs` when it is positive, otherwise do not sleep at all. -/
def rateLimitDelayMs (minSecondsBetweenCalls processingTimeMs : ℚ) : ℚ :=
  if 0 < delayNeededMs minSecondsBetweenCalls processingTimeMs then
    delayNeededMs minSecondsBetweenCalls processingTimeMs
  else 0

/-- Whether `src/backtest.js` lines 204-206 emit the `log.warn` about the
call outlasting the rate-limit interval: exactly when no delay is needed. -/
def rateLimitWarned (minSecondsBetweenCalls processingTimeMs : ℚ) : Bool :=
  decide (delayNeededMs minSecondsBetweenCalls processingTimeMs ≤ 0)

/-- A trade recorded by the balance-holding execution handler used by
`BacktestRunner` (`src/backtestRunner.js` lines 82-89 pass exactly these
fields, with no entry time).  The price fields are `Option` because the
unvalidated Chimera plan may omit them. -/
structure RTrade where
  signal : Option String
  entryPrice : Option ℚ
  stopLoss : Option ℚ
  takeProfit : Option ℚ
  reason : Option String
  size : ℚ
  status : String
  exitTime : Option ℤ
  exitPrice : Option ℚ
  pnl : ℚ
deriving DecidableEq

/-- The open-trade query of the runner's execution handler, as in
`src/backtestExecutionHandler.js`. -/
def getOpenRTrade (trades : List RTrade) : Option RTrade :=
  trades.find? (fun t => t.status == "open")

/-- State owned by `BacktestRunner.run`: the execution handler's trade log
and balance, plus the loop-local `apiCallCount`. -/
structure RunnerState where
  trades : List RTrade
  balance : ℚ
  apiCallCount : ℕ
deriving DecidableEq

/-- In-place mutation of the open runner trade found by `getOpenRTrade`:
update of the first list element whose status is `open`. -/
def updateFirstOpenR : List RTrade → (RTrade → RTrade) → List RTrade
  | [], _ => []
  | t :: ts, f => if t.status == "open" then f t :: ts else t :: updateFirstOpenR ts f

/-- Modelled from the spec: the `BacktestExecutionHandler` variant that is
constructed with `config.INITIAL_BALANCE` and offers `closeTrade(openTrade,
exitPrice, timestamp)` is called from `src/backtestRunner.js` (lines 16, 117)
but its source file is not among the provided sources.  Spec §4.4 (Trade
Ledger): on trigger, `pnl = (exitPrice - entryPrice) * size * (direction ==
LONG ? 1 : -1)`, the Account balance is updated by the realized P&L, the
position is marked CLOSED and archived. -/
def closeRTrade (trades : List RTrade) (balance : ℚ) (px : ℚ) (ts : ℤ) :
    List RTrade × ℚ :=
  match getOpenRTrade trades with
  | none => (trades, balance)
  | some t =>
    let pnl := (px - t.entryPrice.getD 0) * t.size *
      (if t.signal = some "LONG" then 1 else -1)
    (updateFirstOpenR trades (fun u =>
        { u with status := "closed", exitPrice := some px,
                 exitTime := some ts, pnl := pnl }),
     balance + pnl)

/-- The JS comparison `bar.field <= level` when `level` may be `undefined`
(`undefined` comparisons are false). -/
def jsLeOpt (a : ℚ) (b : Option ℚ) : Bool :=
  match b with
  | some q => decide (a ≤ q)
  | none => false

/-- The JS comparison `bar.field >= level` when `level` may be `undefined`. -/
def jsGeOpt (a : ℚ) (b : Option ℚ) : Bool :=
  match b with
  | some q => decide (q ≤ a)
  | none => false

/-- `BacktestRunner._checkTradeExit` (`src/backtestRunner.js`, lines
106-119): the `if/else-if` exit determination over the possibly-absent price
fields of the runner's trade, followed by `closeTrade` guarded by JS
truthiness of `exitPrice`. -/
def runnerCheckExit (c : Candle) (s : RunnerState) : RunnerState :=
  match getOpenRTrade s.trades with
  | none => s
  | some t =>
    let exitPrice : Option ℚ :=
      if t.signal = some "LONG" then
        if jsLeOpt c.low t.stopLoss then t.stopLoss
        else if jsGeOpt c.high t.takeProfit then t.takeProfit
        else none
      else if t.signal = some "SHORT" then
        if jsGeOpt c.high t.stopLoss then t.stopLoss
        else if jsLeOpt c.low t.takeProfit then t.takeProfit
        else none
      else none
    match exitPrice with
    | some px =>
      if px ≠ 0 then
        let res := closeRTrade s.trades s.balance px c.timestamp
        { s with trades := res.1, balance := res.2 }
      else s
    | none => s

/-- Modelled from the spec: `RiskManager.calculatePositionSize` is called
from `src/backtestRunner.js` (line 80) but is not defined in any of the
provided sources.  Spec §4.3 (Position Sizer, leverage-based variant):
`notional = equity * leverage * (1 - marginBuffer)`; `size = notional /
price`; returns nothing when `equity <= 0`, `price <= 0`, or the resulting
size is `<= 0`.  The price is the plan's entry price; the runner's
`RiskManager` is constructed with leverage 10 and margin buffer 0.01. -/
def calculatePositionSize (leverage marginBuffer equity : ℚ)
    (plan : ChimeraPlan) : Option ℚ :=
  match plan.entry_price with
  | none => none
  | some price =>
    if equity ≤ 0 ∨ price ≤ 0 then none
    else
      let size := equity * leverage * (1 - marginBuffer) / price
      if size ≤ 0 then none else some size

/-- The entry attempt of `BacktestRunner.run` (`src/backtestRunner.js`,
lines 78-91): `tradePlan.signal !== 'HOLD'` is true when the field is absent,
`tradePlan.confidence >= threshold` is false when absent, and
`positionSize && positionSize > 0` rejects both `null` and `0`. -/
def runnerTryOpen (thr : ℚ) (plan : ChimeraPlan) (s : RunnerState) : RunnerState :=
  if plan.signal ≠ some "HOLD" ∧ jsConfGe plan.confidence thr = true then
    match calculatePositionSize 10 (1 / 100) s.balance plan with
    | some positionSize =>
      if 0 < positionSize then
        { s with trades := s.trades ++
            [{ signal := plan.signal, entryPrice := plan.entry_price,
               stopLoss := plan.stop_loss_price,
               takeProfit := plan.take_profit_price, reason := plan.reason,
               size := positionSize, status := "open", exitTime := none,
               exitPrice := none, pnl := 0 }] }
      else s
    | none => s
  else s

/-- Static configuration consumed by `BacktestRunner.run`. -/
structure RunnerConfig where
  INITIAL_BALANCE : ℚ
  MINIMUM_CONFIDENCE_THRESHOLD : ℚ
  MAX_API_CALLS : ℕ
  WARMUP_PERIOD : ℕ
deriving DecidableEq

/-- The candle loop of `BacktestRunner.run` (`src/backtestRunner.js`, lines
34-102): per candle, run the exit check if a trade is open; if no trade is
open afterwards, break out of the whole loop when the API-call budget is
exhausted (a normal termination), otherwise consume one oracle call and
attempt an entry.  The oracle is abstracted as a function of the call count:
call number `k` (0-based) returns `oracle k`. -/
def runnerLoop (cfg : RunnerConfig) (oracle : ℕ → ChimeraPlan) :
    List Candle → RunnerState → RunnerState
  | [], s => s
  | c :: rest, s =>
    let s1 := runnerCheckExit c s
    match getOpenRTrade s1.trades with
    | none =>
      if cfg.MAX_API_CALLS ≤ s1.apiCallCount then s1
      else
        let plan := oracle s1.apiCallCount
        let s2 := { s1 with apiCallCount := s1.apiCallCount + 1 }
        runnerLoop cfg oracle rest (runnerTryOpen cfg.MINIMUM_CONFIDENCE_THRESHOLD plan s2)
    | some _ => runnerLoop cfg oracle rest s1

/-- `BacktestRunner.run` (`src/backtestRunner.js`, lines 22-104): throws
(`none`) when the candle series is shorter than the warm-up period,
otherwise iterates the loop from index `WARMUP_PERIOD` to the end, starting
with an empty trade log, the configured initial balance, and a zero call
count. -/
def runnerRun (cfg : RunnerConfig) (oracle : ℕ → ChimeraPlan)
    (allCandles : List Candle) : Option RunnerState :=
  if allCandles.length < cfg.WARMUP_PERIOD then none
  else some (runnerLoop cfg oracle (allCandles.drop cfg.WARMUP_PERIOD)
    ⟨[], cfg.INITIAL_BALANCE, 0⟩)

/-- The inductive invariant of the `backtest.js` trade log after processing
candles up to timestamp `T`: statuses are well-formed, every entry happened
at or before `T`, every closed trade closed strictly after its entry and at
or before `T`, only the most recent trade can still be open, and exits
precede later entries. -/
structure LedgerInv (T : ℤ) (trades : List Trade) : Prop where
  statuses : ∀ t ∈ trades, t.status = "open" ∨ t.status = "closed"
  entry_le : ∀ t ∈ trades, t.entryTime ≤ T
  closed_exit : ∀ t ∈ trades, t.status = "closed" →
    ∃ x, t.exitTime = some x ∧ t.entryTime < x ∧ x ≤ T
  open_noexit : ∀ t ∈ trades, t.status = "open" → t.exitTime = none
  init_closed : ∀ t ∈ trades.dropLast, t.status = "closed"
  chron : trades.Pairwise (fun a b => ∀ x, a.exitTime = some x → x ≤ b.entryTime)

/-- C6: between two consecutive oracle invocations the driver sleeps only for
the remainder `minSecondsBetweenCalls*1000 - elapsed` of the interval (the
call's own latency counts against the interval, not in addition to it), so
elapsed time plus applied delay is always at least the full interval; when
the elapsed time already reaches or exceeds the interval, the warning branch
runs and no delay is added. -/
theorem rateLimit_spacing (m p : ℚ) (_hp : 0 ≤ p) :
    (p < m * 1000 → rateLimitDelayMs m p = m * 1000 - p) ∧
    (m * 1000 ≤ p → rateLimitDelayMs m p = 0 ∧ rateLimitWarned m p = true) ∧
    m * 1000 ≤ p + rateLimitDelayMs m p := by
  refine ⟨fun h => ?_, fun h => ⟨?_, ?_⟩, ?_⟩
  · rw [rateLimitDelayMs, delayNeededMs, if_pos (by linarith)]
  · rw [rateLimitDelayMs, delayNeededMs, if_neg (by simp; linarith)]
  · rw [rateLimitWarned, delayNeededMs, decide_eq_true_eq]
    linarith
  · rw [rateLimitDelayMs, delayNeededMs]
    split
    · linarith
    · next hneg => simp at hneg; linarith

/-- Witness for C6 at `MIN_SECONDS_BETWEEN_CALLS = 100` and a 30-second
processing time: the driver waits exactly the remaining 70 000 ms. -/
theorem rateLimit_spacing_witness :
    (0 ≤ (30000 : ℚ)) ∧
    ((30000 : ℚ) < 100 * 1000 → rateLimitDelayMs 100 30000 = 100 * 1000 - 30000) ∧
    (100 * 1000 ≤ (30000 : ℚ) →
      rateLimitDelayMs 100 30000 = 0 ∧ rateLimitWarned 100 30000 = true) ∧
    (100 : ℚ) * 1000 ≤ 30000 + rateLimitDelayMs 100 30000 :=
  ⟨by norm_num, rateLimit_spacing 100 30000 (by norm_num)⟩

/-- C2 (code bug): on a LONG position with stop loss 90 and take profit 110
and a bar with low 85 and high 115 — both exit levels reached — the
`if/else-if` exit check of `src/backtest.js` (and `BacktestRunner`) selects
the stop-loss price 90, as the spec's adopted conservative policy requires;
the four sequential `if`s of `src/unnamed/part_004` instead leave the
take-profit price 110 in `exitPrice`, because the take-profit assignment
overwrites the stop-loss assignment. -/
theorem exit_priority_part004_bug :
    evalExit ⟨1, 100, 115, 85, 100, 0⟩
        ⟨0, 100, "LONG", 1, 90, 110, "open", none, none, 0⟩ =
      some (90, "Stop-Loss") ∧
    exitAssignSequential ⟨1, 100, 115, 85, 100, 0⟩
        ⟨0, 100, "LONG", 1, 90, 110, "open", none, none, 0⟩ = some 110 ∧
    (110 : ℚ) ≠ 90 := by
  refine ⟨?_, ?_, by norm_num⟩
  · norm_num [evalExit]
  · norm_num [exitAssignSequential]

/-- C4 counterexample: with equity 10000, leverage 10, margin buffer 0.01 and
last price 70000, the code returns size 1.4143 — the formula value
`10000 * 10 * 0.99 / 70000 = 1.41428...` rounded by
`parseFloat(positionSizeInBTC.toFixed(4))` — and NOT the exact formula value
the claim states. -/
theorem sizer_rounding_counterexample :
    calculateTradeParameters cfgBacktest 10000 [⟨0, 0, 0, 0, 70000, 0⟩]
        ⟨"LONG", some 80, "rsn", some 500⟩ =
      some ⟨14143 / 10000, 69500, 71500⟩ ∧
    (14143 / 10000 : ℚ) ≠ 10000 * 10 * (1 - 1 / 100) / 70000 := by
  constructor
  · norm_num [calculateTradeParameters, cfgBacktest, round4, jround]
    exact fun h => absurd h (by decide)
  · norm_num

/-- C4 amended: for a non-HOLD signal with positive stop distance, the sizer
returns `equity * leverage * (1 - marginBuffer) / price` ROUNDED TO FOUR
DECIMAL PLACES when equity and price are positive (for a configuration with
positive leverage and margin buffer below 1, so that the computed size is
positive), and returns null when `equity <= 0` or `price <= 0`. -/
theorem sizer_size_formula (cfg : RMConfig) (balance d : ℚ) (w : List Candle)
    (lc : Candle) (sig : TradingSignal)
    (hw : w.getLast? = some lc)
    (hsig : sig.signal ≠ "HOLD")
    (hd : sig.stop_loss_distance_in_usd = some d) (hd0 : 0 < d)
    (hlev : 0 < cfg.leverage) (hmb : cfg.marginBuffer < 1) :
    (0 < balance → 0 < lc.close →
      (calculateTradeParameters cfg balance w sig).map TradeParams.size =
        some (round4 (balance * cfg.leverage * (1 - cfg.marginBuffer) / lc.close))) ∧
    (balance ≤ 0 → calculateTradeParameters cfg balance w sig = none) ∧
    (lc.close ≤ 0 → calculateTradeParameters cfg balance w sig = none) := by
  rw [calculateTradeParameters, hw]
  simp only [hd, if_neg hsig]
  refine ⟨fun hb hc => ?_, fun hb => ?_, fun hc => ?_⟩
  · have hpos : 0 < balance * cfg.leverage * (1 - cfg.marginBuffer) / lc.close := by
      apply div_pos
      · apply mul_pos (mul_pos hb hlev)
        linarith
      · exact hc
    rw [if_neg (by linarith), if_neg (by linarith), if_neg (by linarith),
      if_neg (by linarith)]
    rfl
  · rw [if_neg (by linarith), if_pos hb]
  · rw [if_neg (by linarith : ¬d ≤ 0)]
    by_cases hb : balance ≤ 0
    · rw [if_pos hb]
    · rw [if_neg hb, if_pos hc]

/-- Witness for C4 at the spec's Scenario 3: equity 10000, leverage 10,
margin buffer 0.01, price 50000 give size exactly 1.98. -/
theorem sizer_size_formula_witness :
    (calculateTradeParameters cfgBacktest 10000 [⟨0, 0, 0, 0, 50000, 0⟩]
        ⟨"LONG", some 80, "wtn", some 500⟩).map TradeParams.size =
      some (198 / 100) := by
  have h := (sizer_size_formula cfgBacktest 10000 500 [⟨0, 0, 0, 0, 50000, 0⟩]
    ⟨0, 0, 0, 0, 50000, 0⟩ ⟨"LONG", some 80, "wtn", some 500⟩ rfl
    (by decide) rfl (by norm_num) (by norm_num [cfgBacktest])
    (by norm_num [cfgBacktest])).1 (by norm_num) (by norm_num)
  rw [h]
  norm_num [cfgBacktest, round4]

/-- C8 counterexample: a parsed oracle reply whose `confidence` is the
out-of-range number 150 passes the type-only validation of the
local-indicator `generateSignal` and is returned verbatim — the signal is
LONG, not HOLD, and the confidence is not zero — refuting the claim that
every oracle failure (including out-of-range values) is replaced by a HOLD
opinion with zero confidence. -/
theorem oracle_out_of_range_counterexample :
    generateSignal true (some ()) (OracleOutcome.parsed
        ⟨"LONG", some 150, "outofrange", some 5⟩) =
      ⟨"LONG", some 150, "outofrange", some 5⟩ ∧
    ("LONG" : String) ≠ "HOLD" ∧ (some (150 : ℚ)) ≠ some 0 := by
  refine ⟨?_, by decide, by norm_num⟩
  rw [generateSignal]
  norm_num [validStrategistData]

/-- C8 amended: transport failures, unextractable or unparseable replies, and
parsed replies failing the type/membership validation make the
local-indicator `generateSignal` return a HOLD opinion with zero confidence
(numeric range is NOT validated); the Chimera variant returns on its failure
paths a bare `{signal:'HOLD'}` with NO confidence field; in both engines no
error propagates, and a HOLD result opens no trade in either replay loop. -/
theorem oracle_failure_degrades_to_hold (ind : Option Unit)
    (d : TradingSignal) (hd : validStrategistData d = false) :
    (generateSignal true ind OracleOutcome.failure).signal = "HOLD" ∧
    (generateSignal true ind OracleOutcome.failure).confidence = some 0 ∧
    (generateSignal true (some ()) (OracleOutcome.parsed d)).signal = "HOLD" ∧
    (generateSignal true (some ()) (OracleOutcome.parsed d)).confidence = some 0 ∧
    generateSignalChimera true OracleOutcome.failure = chimeraHold ∧
    chimeraHold.signal = some "HOLD" ∧ chimeraHold.confidence = none ∧
    (∀ (r : String) (w : List Candle) (s : SimState),
      tryOpen cfgBacktest 70 w (holdSignal r) s = s) ∧
    (∀ (thr : ℚ) (s : RunnerState), runnerTryOpen thr chimeraHold s = s) := by
  refine ⟨?_, ?_, ?_, ?_, rfl, rfl, rfl, ?_, ?_⟩
  · cases ind <;> rfl
  · cases ind <;> rfl
  · rw [generateSignal]
    simp only [Bool.not_true, Bool.false_eq_true, if_false, hd, if_false]
    rfl
  · rw [generateSignal]
    simp only [Bool.not_true, Bool.false_eq_true, if_false, hd, if_false]
    rfl
  · intro r w s
    rw [tryOpen]
    cases getOpenTrade s.trades
    · simp [holdSignal]
    · rfl
  · intro thr s
    rw [runnerTryOpen]
    simp [chimeraHold]

/-- Witness for C8 at a parsed reply missing both numeric fields: it fails
validation and the engine substitutes the HOLD/zero-confidence opinion. -/
theorem oracle_failure_degrades_to_hold_witness :
    validStrategistData ⟨"LONG", none, "wtn", none⟩ = false ∧
    (generateSignal true (some ())
        (OracleOutcome.parsed ⟨"LONG", none, "wtn", none⟩)).signal = "HOLD" ∧
    (generateSignal true (some ())
        (OracleOutcome.parsed ⟨"LONG", none, "wtn", none⟩)).confidence = some 0 :=
  ⟨by decide,
    (oracle_failure_degrades_to_hold (some ()) ⟨"LONG", none, "wtn", none⟩
      (by decide)).2.2.1,
    (oracle_failure_degrades_to_hold (some ()) ⟨"LONG", none, "wtn", none⟩
      (by decide)).2.2.2.1⟩

/-- Pointwise agreement between the loop body of `_calculateATR` and the
claim's per-bar true range. -/
theorem trueRangeAt_eq_spec (l : List Candle) (j : ℕ) (hj : j < l.length)
    (hj2 : j < (none :: l.map some).length) :
    trueRangeAt l j = trueRangeSpec ((none :: l.map some)[j]) (l[j]) := by
  have hget : (l.get? j).getD default = l[j] := by
    rw [List.get?_eq_getElem?, List.getElem?_eq_getElem hj]
    rfl
  cases j with
  | zero =>
    simp only [trueRangeAt, trueRangeSpec, List.getElem_cons_zero]
    rw [hget]
    simp
  | succ k =>
    have hk : k < l.length := by omega
    have hgetk : (l.get? (k + 1 - 1)).getD default = l[k] := by
      simp only [Nat.add_sub_cancel]
      rw [List.get?_eq_getElem?, List.getElem?_eq_getElem hk]
      rfl
    simp only [trueRangeAt, trueRangeSpec, List.getElem_cons_succ, List.getElem_map,
      Nat.zero_lt_succ, if_true]
    rw [hget, hgetk]

/-- The true-range window summed by `_calculateATR` coincides with the
claim's reading of it: each of the last `period` bars paired with its
predecessor in the full series. -/
theorem atr_window_eq (l : List Candle) (period : ℕ) (hlen : period ≤ l.length) :
    (List.range period).map (fun k => trueRangeAt l (l.length - period + k)) =
    ((l.zip (none :: l.map some)).drop (l.length - period)).map
      (fun p => trueRangeSpec p.2 p.1) := by
  have hzlen : (l.zip (none :: l.map some)).length = l.length := by
    simp [List.length_zip]
  apply List.ext_getElem
  · simp only [List.length_map, List.length_range, List.length_drop, hzlen]
    omega
  · intro i h1 h2
    simp only [List.getElem_map, List.getElem_range] at h1 ⊢
    have hi : i < period := by simpa using h1
    have hj : l.length - period + i < l.length := by omega
    rw [List.getElem_drop]
    rw [List.getElem_zip]
    exact trueRangeAt_eq_spec l (l.length - period + i) hj (by simp; omega)

/-- C7 amended: on every NONEMPTY series shorter than the period the ATR
helper does not fail and returns the last bar's high-low range (`|| 0`
coercing a zero range to 0); on a series at least as long as the period it
returns the arithmetic mean of `max(high-low, |high-prevClose|,
|low-prevClose|)` over the last `period` bars, `prevClose` falling back to
the bar's own high when no prior bar exists.  (On the EMPTY series the
source throws, so the claim's `does not throw' needed the nonemptiness
restriction.) -/
theorem atr_fallback_and_mean (ohlcData : List Candle) (period : ℕ)
    (hne : ohlcData ≠ []) (_hp : 1 ≤ period) :
    (ohlcData.length < period → ∃ c, ohlcData.getLast? = some c ∧
      calculateATR ohlcData period = some (jsOrZero (c.high - c.low))) ∧
    (period ≤ ohlcData.length →
      calculateATR ohlcData period = some (atrSpec ohlcData period)) := by
  constructor
  · intro hshort
    obtain ⟨c, hc⟩ : ∃ c, ohlcData.getLast? = some c := by
      cases h : ohlcData.getLast? with
      | none => exact absurd (List.getLast?_eq_none_iff.mp h) hne
      | some c => exact ⟨c, rfl⟩
    refine ⟨c, hc, ?_⟩
    rw [calculateATR, if_pos hshort, hc]
  · intro hlen
    have hw := atr_window_eq ohlcData period hlen
    rw [calculateATR, if_neg (not_lt.mpr hlen)]
    simp only [atrSpec, ← hw, List.length_map, List.length_range]

/-- Witness for C7: a single-bar series with period 14 falls back to the
bar's high-low range 6; with period 1 the same series is long enough and the
mean form applies. -/
theorem atr_fallback_and_mean_witness :
    calculateATR [⟨0, 0, 10, 4, 8, 0⟩] 14 = some 6 ∧
    calculateATR [⟨0, 0, 10, 4, 8, 0⟩] 1 = some (atrSpec [⟨0, 0, 10, 4, 8, 0⟩] 1) := by
  constructor
  · obtain ⟨c, hc, h⟩ := (atr_fallback_and_mean [⟨0, 0, 10, 4, 8, 0⟩] 14
      (by simp) (by norm_num)).1 (by simp)
    have hx : (⟨0, 0, 10, 4, 8, 0⟩ : Candle) = c := by simpa using hc
    subst hx
    rw [h]
    norm_num [jsOrZero]
  · exact (atr_fallback_and_mean [⟨0, 0, 10, 4, 8, 0⟩] 1
      (by simp) (by norm_num)).2 (by simp)

/-- C7 counterexample: on the empty series `_calculateATR` reads
`ohlcData[-1].high`, a thrown `TypeError` (`none` in this embedding) — it
does not return the claimed numeric fallback. -/
theorem atr_empty_throws_counterexample :
    calculateATR [] 14 = none ∧ calculateATR [] 14 ≠ some 0 := by
  constructor
  · rw [calculateATR]
    simp
  · rw [calculateATR]
    simp

/-- C3: whenever the exit check actually closes the open trade (an exit level
triggered and the resulting price is truthy), the exit price is exactly the
trade's stop-loss or take-profit level, the realized pnl is
`(exitPrice - entryPrice) * size * (LONG ? 1 : -1)`, the pnl is added to the
account balance, and the trade's status becomes `closed` with the exit price
and the bar's timestamp recorded. -/
theorem close_settles_trade (s : SimState) (c : Candle) (t : Trade) (px : ℚ)
    (r : String)
    (hfind : getOpenTrade s.trades = some t)
    (hexit : evalExit c t = some (px, r))
    (hpx : px ≠ 0) :
    (px = t.stopLoss ∨ px = t.takeProfit) ∧
    checkClose c s =
      { trades := updateFirstOpen s.trades (closeUpdate c px
          ((px - t.entryPrice) * t.size * (if t.signal = "LONG" then 1 else -1))),
        balance := s.balance +
          (px - t.entryPrice) * t.size * (if t.signal = "LONG" then 1 else -1) } ∧
    (closeUpdate c px ((px - t.entryPrice) * t.size *
        (if t.signal = "LONG" then 1 else -1)) t).status = "closed" ∧
    (closeUpdate c px ((px - t.entryPrice) * t.size *
        (if t.signal = "LONG" then 1 else -1)) t).exitPrice = some px ∧
    (closeUpdate c px ((px - t.entryPrice) * t.size *
        (if t.signal = "LONG" then 1 else -1)) t).exitTime = some c.timestamp ∧
    (closeUpdate c px ((px - t.entryPrice) * t.size *
        (if t.signal = "LONG" then 1 else -1)) t).pnl =
      (px - t.entryPrice) * t.size * (if t.signal = "LONG" then 1 else -1) := by
  refine ⟨?_, ?_, rfl, rfl, rfl, rfl⟩
  · rw [evalExit] at hexit
    split_ifs at hexit <;>
      simp only [Option.some.injEq, Prod.mk.injEq] at hexit <;>
      first
      | exact Or.inl hexit.1.symm
      | exact Or.inr hexit.1.symm
  · simp only [checkClose, hfind, hexit]
    rw [if_pos hpx]

/-- Witness for C3 at the spec's Scenario 2 shape: a LONG entered at 100 with
size 990, stop 96, take profit 112; a bar with low 95 triggers the stop, the
trade closes at 96, and the balance moves by `(96-100)*990 = -3960`. -/
theorem close_settles_trade_witness :
    getOpenTrade [⟨100, 100, "LONG", 990, 96, 112, "open", none, none, 0⟩] =
      some ⟨100, 100, "LONG", 990, 96, 112, "open", none, none, 0⟩ ∧
    evalExit ⟨200, 0, 100, 95, 98, 0⟩
        ⟨100, 100, "LONG", 990, 96, 112, "open", none, none, 0⟩ =
      some (96, "Stop-Loss") ∧
    ((96 : ℚ) ≠ 0) ∧
    ((96 : ℚ) = (⟨100, 100, "LONG", 990, 96, 112, "open", none, none, 0⟩ : Trade).stopLoss ∨
      (96 : ℚ) = (⟨100, 100, "LONG", 990, 96, 112, "open", none, none, 0⟩ : Trade).takeProfit) ∧
    checkClose ⟨200, 0, 100, 95, 98, 0⟩
        ⟨[⟨100, 100, "LONG", 990, 96, 112, "open", none, none, 0⟩], 10000⟩ =
      { trades := updateFirstOpen
          [⟨100, 100, "LONG", 990, 96, 112, "open", none, none, 0⟩]
          (closeUpdate ⟨200, 0, 100, 95, 98, 0⟩ 96
            ((96 - (100 : ℚ)) * 990 * (if ("LONG" : String) = "LONG" then 1 else -1))),
        balance := 10000 +
          (96 - (100 : ℚ)) * 990 * (if ("LONG" : String) = "LONG" then 1 else -1) } := by
  have hfind : getOpenTrade [⟨100, 100, "LONG", 990, 96, 112, "open", none, none, 0⟩] =
      some ⟨100, 100, "LONG", 990, 96, 112, "open", none, none, 0⟩ := rfl
  have hexit : evalExit ⟨200, 0, 100, 95, 98, 0⟩
      ⟨100, 100, "LONG", 990, 96, 112, "open", none, none, 0⟩ =
      some (96, "Stop-Loss") := by norm_num [evalExit]
  have h := close_settles_trade ⟨[⟨100, 100, "LONG", 990, 96, 112, "open", none, none, 0⟩], 10000⟩
    ⟨200, 0, 100, 95, 98, 0⟩ ⟨100, 100, "LONG", 990, 96, 112, "open", none, none, 0⟩
    96 "Stop-Loss" hfind hexit (by norm_num)
  exact ⟨hfind, hexit, by norm_num, h.1, h.2.1⟩

/-- The runner's exit check never touches the API-call counter. -/
theorem runnerCheckExit_apiCallCount (c : Candle) (s : RunnerState) :
    (runnerCheckExit c s).apiCallCount = s.apiCallCount := by
  rw [runnerCheckExit]
  cases getOpenRTrade s.trades with
  | none => rfl
  | some t =>
    dsimp only
    cases hx : (if t.signal = some "LONG" then
        if jsLeOpt c.low t.stopLoss = true then t.stopLoss
        else if jsGeOpt c.high t.takeProfit = true then t.takeProfit
        else none
      else if t.signal = some "SHORT" then
        if jsGeOpt c.high t.stopLoss = true then t.stopLoss
        else if jsLeOpt c.low t.takeProfit = true then t.takeProfit
        else none
      else none) with
    | none => rfl
    | some px =>
      dsimp only
      split <;> rfl

/-- The runner's entry attempt never touches the API-call counter. -/
theorem runnerTryOpen_apiCallCount (thr : ℚ) (plan : ChimeraPlan)
    (s : RunnerState) :
    (runnerTryOpen thr plan s).apiCallCount = s.apiCallCount := by
  rw [runnerTryOpen]
  split
  · cases calculatePositionSize 10 (1 / 100) s.balance plan with
    | none => rfl
    | some sz =>
      dsimp only
      split <;> rfl
  · rfl

/-- The loop of `BacktestRunner.run` never pushes the API-call counter past
the configured budget: each oracle invocation is guarded by
`apiCallCount >= MAX_API_CALLS` (the guard breaks out of the loop). -/
theorem runnerLoop_call_budget (cfg : RunnerConfig) (oracle : ℕ → ChimeraPlan) :
    ∀ (candles : List Candle) (s : RunnerState),
      s.apiCallCount ≤ cfg.MAX_API_CALLS →
      (runnerLoop cfg oracle candles s).apiCallCount ≤ cfg.MAX_API_CALLS := by
  intro candles
  induction candles with
  | nil => intro s hs; exact hs
  | cons c rest ih =>
    intro s hs
    rw [runnerLoop]
    have h1 := runnerCheckExit_apiCallCount c s
    cases hopen : getOpenRTrade (runnerCheckExit c s).trades with
    | some t =>
      dsimp only
      exact ih _ (by rw [h1]; exact hs)
    | none =>
      dsimp only
      split
      · next hbudget => rw [h1]; exact hs
      · next hbudget =>
        apply ih
        rw [runnerTryOpen_apiCallCount]
        simp only [h1] at hbudget ⊢
        omega

/-- With a zero budget and an empty trade log, the runner's loop is the
identity: the very first eligible step hits the budget guard and breaks. -/
theorem runnerLoop_zero_budget (cfg : RunnerConfig) (oracle : ℕ → ChimeraPlan)
    (hmax : cfg.MAX_API_CALLS = 0) :
    ∀ (candles : List Candle) (b : ℚ),
      runnerLoop cfg oracle candles ⟨[], b, 0⟩ = ⟨[], b, 0⟩ := by
  intro candles b
  cases candles with
  | nil => rfl
  | cons c rest =>
    rw [runnerLoop]
    have hexit : runnerCheckExit c ⟨[], b, 0⟩ = ⟨[], b, 0⟩ := rfl
    rw [hexit]
    have hopen : getOpenRTrade ([] : List RTrade) = none := rfl
    simp only [hopen, hmax]
    norm_num

/-- C5: a run of the replay driver invokes the oracle at most
`MAX_API_CALLS` times (reaching the budget is a normal termination of the
loop, returning the state as it stands), and in the boundary case
`MAX_API_CALLS = 0` a run over sufficient data opens zero trades and ends
with the initial balance. -/
theorem runner_call_budget (cfg : RunnerConfig) (oracle : ℕ → ChimeraPlan)
    (allCandles : List Candle)
    (hdata : cfg.WARMUP_PERIOD ≤ allCandles.length) :
    (∀ fin, runnerRun cfg oracle allCandles = some fin →
      fin.apiCallCount ≤ cfg.MAX_API_CALLS) ∧
    (cfg.MAX_API_CALLS = 0 →
      runnerRun cfg oracle allCandles = some ⟨[], cfg.INITIAL_BALANCE, 0⟩) := by
  constructor
  · intro fin hfin
    rw [runnerRun, if_neg (not_lt.mpr hdata)] at hfin
    have h := runnerLoop_call_budget cfg oracle
      (allCandles.drop cfg.WARMUP_PERIOD) ⟨[], cfg.INITIAL_BALANCE, 0⟩
      (Nat.zero_le _)
    rw [Option.some.injEq] at hfin
    rw [← hfin]
    exact h
  · intro hmax
    rw [runnerRun, if_neg (not_lt.mpr hdata),
      runnerLoop_zero_budget cfg oracle hmax]

/-- Witness for C5: a zero-budget configuration over one candle with no
warm-up produces no trades and keeps the initial balance 10000. -/
theorem runner_call_budget_witness :
    runnerRun ⟨10000, 50, 0, 0⟩ (fun _ => chimeraHold) [⟨0, 0, 0, 0, 0, 0⟩] =
      some ⟨[], 10000, 0⟩ :=
  (runner_call_budget ⟨10000, 50, 0, 0⟩ (fun _ => chimeraHold)
    [⟨0, 0, 0, 0, 0, 0⟩] (by norm_num)).2 rfl

/-- C9 counterexample: the AI may suggest a fractional stop distance; with
last price 100 and `stop_loss_distance_in_usd = 0.4` the rounded stop
`Math.round(99.6) = 100` EQUALS the entry price, so the opened LONG violates
`stop_loss_price < entry_price` — and nothing rejects it before
`placeOrder`. -/
theorem ordering_rounding_counterexample :
    (backtestStep [⟨5, 0, 0, 0, 100, 0⟩] ⟨"LONG", some 80, "cex", some (2 / 5)⟩
        ⟨[], 10000⟩).trades.map
      (fun t => (t.signal, t.entryPrice, t.stopLoss, t.takeProfit)) =
      [("LONG", (100 : ℚ), (100 : ℚ), (101 : ℚ))] ∧
    ¬((100 : ℚ) < 100) := by
  constructor
  · norm_num [backtestStep, checkClose, tryOpen, getOpenTrade,
      calculateTradeParameters, cfgBacktest, placeOrder, jsConfGe, round4, jround,
      show ("LONG" : String) ≠ "HOLD" from by decide]
  · norm_num

/-- C9 amended: a position opened by the `backtest.js` entry path from a
signal whose AI-provided stop distance is at least 1 does satisfy the
ordering invariant (`stopLoss < entry < takeProfit` for LONG, reversed for
SHORT); with a distance below 1, `Math.round` can collapse the stop onto the
entry, and no direction-consistency check rejects such an entry. -/
theorem open_ordering_amended (w : List Candle) (sig : TradingSignal)
    (s : SimState) (d : ℚ)
    (hd : sig.stop_loss_distance_in_usd = some d) (hd1 : 1 ≤ d) :
    ∀ t ∈ (tryOpen cfgBacktest 70 w sig s).trades, t ∉ s.trades →
      (t.signal = "LONG" → t.stopLoss < t.entryPrice ∧ t.entryPrice < t.takeProfit) ∧
      (t.signal = "SHORT" → t.takeProfit < t.entryPrice ∧ t.entryPrice < t.stopLoss) := by
  intro t ht hnew
  rw [tryOpen] at ht
  cases hfind : getOpenTrade s.trades with
  | some u => rw [hfind] at ht; exact absurd ht hnew
  | none =>
    rw [hfind] at ht
    dsimp only at ht
    by_cases hcond : sig.signal ≠ "HOLD" ∧ jsConfGe sig.confidence 70 = true
    swap
    · rw [if_neg hcond] at ht; exact absurd ht hnew
    rw [if_pos hcond] at ht
    cases hcp : calculateTradeParameters cfgBacktest s.balance w sig with
    | none => rw [hcp] at ht; exact absurd ht hnew
    | some p =>
      rw [hcp] at ht
      dsimp only at ht
      by_cases hsz : 0 < p.size
      swap
      · rw [if_neg hsz] at ht; exact absurd ht hnew
      rw [if_pos hsz] at ht
      cases hw : w.getLast? with
      | none => rw [hw] at ht; exact absurd ht hnew
      | some c =>
        rw [hw] at ht
        dsimp only [placeOrder] at ht
        rw [List.mem_append] at ht
        rcases ht with ht | ht
        · exact absurd ht hnew
        rw [List.mem_singleton] at ht
        subst ht
        simp only [calculateTradeParameters, hw, hd, cfgBacktest,
          if_neg hcond.1] at hcp
        by_cases hsig : sig.signal = "LONG"
        · simp only [if_pos hsig] at hcp
          split_ifs at hcp
          obtain rfl := (Option.some.inj hcp).symm
          have hfl1 : ((⌊c.close - d + 1 / 2⌋ : ℤ) : ℚ) ≤ c.close - d + 1 / 2 :=
            Int.floor_le _
          have hfl2 : c.close + d * 3 + 1 / 2 - 1 <
              ((⌊c.close + d * 3 + 1 / 2⌋ : ℤ) : ℚ) :=
            Int.sub_one_lt_floor _
          refine ⟨fun _ => ⟨?_, ?_⟩, fun hS => ?_⟩
          · dsimp only [jround]
            linarith
          · dsimp only [jround]
            linarith
          · have hS2 : sig.signal = "SHORT" := hS
            rw [hsig] at hS2
            exact absurd hS2 (by decide)
        · simp only [if_neg hsig] at hcp
          split_ifs at hcp
          obtain rfl := (Option.some.inj hcp).symm
          have hfl1 : c.close + d + 1 / 2 - 1 <
              ((⌊c.close + d + 1 / 2⌋ : ℤ) : ℚ) :=
            Int.sub_one_lt_floor _
          have hfl2 : ((⌊c.close - d * 3 + 1 / 2⌋ : ℤ) : ℚ) ≤ c.close - d * 3 + 1 / 2 :=
            Int.floor_le _
          refine ⟨fun hL => ?_, fun _ => ⟨?_, ?_⟩⟩
          · have hL2 : sig.signal = "LONG" := hL
            exact absurd hL2 hsig
          · dsimp only [jround]
            linarith
          · dsimp only [jround]
            linarith

/-- Witness for C9: a LONG with last price 50000 and stop distance 500 opens
with `stopLoss 49500 < entry 50000 < takeProfit 51500`, so the instantiated
ordering conclusion holds for the one opened trade. -/
theorem open_ordering_amended_witness :
    (⟨"LONG", some 80, "wit", some 500⟩ : TradingSignal).stop_loss_distance_in_usd =
      some 500 ∧ (1 : ℚ) ≤ 500 ∧
    (∀ t ∈ (tryOpen cfgBacktest 70 [⟨7, 0, 0, 0, 50000, 0⟩]
        ⟨"LONG", some 80, "wit", some 500⟩ ⟨[], 10000⟩).trades,
      t ∉ (⟨[], 10000⟩ : SimState).trades →
      (t.signal = "LONG" → t.stopLoss < t.entryPrice ∧ t.entryPrice < t.takeProfit) ∧
      (t.signal = "SHORT" → t.takeProfit < t.entryPrice ∧ t.entryPrice < t.stopLoss)) :=
  ⟨rfl, by norm_num,
    open_ordering_amended [⟨7, 0, 0, 0, 50000, 0⟩] ⟨"LONG", some 80, "wit", some 500⟩
      ⟨[], 10000⟩ 500 rfl (by norm_num)⟩

/-- A log whose every element but the last is closed holds at most one open
trade. -/
theorem countOpen_le_one : ∀ (l : List Trade),
    (∀ u ∈ l.dropLast, u.status = "closed") → countOpen l ≤ 1 := by
  intro l
  induction l with
  | nil => intro _; simp [countOpen]
  | cons a l ih =>
    intro h
    cases l with
    | nil =>
      simp only [countOpen, List.filter]
      split <;> simp
    | cons b m =>
      have ha : a.status = "closed" := by
        apply h
        rw [List.dropLast_cons₂]
        exact List.mem_cons_self a _
      have ha2 : (a.status == "open") = false := by rw [ha]; decide
      have hrest : ∀ u ∈ (b :: m).dropLast, u.status = "closed" := by
        intro u hu
        apply h
        rw [List.dropLast_cons₂]
        exact List.mem_cons_of_mem a hu
      simpa [countOpen, List.filter, ha2] using ih hrest

/-- When every element but the last is closed, a successful `getOpenTrade`
returns exactly the last element, which is open. -/
theorem getOpenTrade_split : ∀ (l : List Trade),
    (∀ u ∈ l.dropLast, u.status = "closed") →
    ∀ t, getOpenTrade l = some t →
    l = l.dropLast ++ [t] ∧ t.status = "open" := by
  intro l
  induction l with
  | nil => intro _ t ht; exact Option.noConfusion ht
  | cons a l ih =>
    intro h t ht
    cases hpa : a.status == "open" with
    | true =>
      simp only [getOpenTrade, List.find?, hpa] at ht
      have hat : a = t := Option.some.inj ht
      subst hat
      have hopen : a.status = "open" := by rwa [beq_iff_eq] at hpa
      cases l with
      | nil => exact ⟨rfl, hopen⟩
      | cons b m =>
        have ha : a.status = "closed" := by
          apply h
          rw [List.dropLast_cons₂]
          exact List.mem_cons_self a _
        rw [ha] at hopen
        exact absurd hopen (by decide)
    | false =>
      simp only [getOpenTrade, List.find?, hpa] at ht
      cases l with
      | nil => exact Option.noConfusion ht
      | cons b m =>
        have hrest : ∀ u ∈ (b :: m).dropLast, u.status = "closed" := by
          intro u hu
          apply h
          rw [List.dropLast_cons₂]
          exact List.mem_cons_of_mem a hu
        obtain ⟨heq, hopen⟩ := ih hrest t ht
        constructor
        · rw [List.dropLast_cons₂]
          rw [List.cons_append]
          rw [← heq]
        · exact hopen

/-- Updating the first open trade of `closed ++ [open]` rewrites exactly the
final element. -/
theorem updateFirstOpen_concat : ∀ (init : List Trade),
    (∀ u ∈ init, u.status = "closed") →
    ∀ (t : Trade) (f : Trade → Trade), t.status = "open" →
    updateFirstOpen (init ++ [t]) f = init ++ [f t] := by
  intro init
  induction init with
  | nil =>
    intro _ t f ht
    have ht2 : (t.status == "open") = true := by rw [ht]; decide
    simp [updateFirstOpen, ht2]
  | cons a init ih =>
    intro h t f ht
    have ha : a.status = "closed" := h a (List.mem_cons_self a _)
    have ha2 : (a.status == "open") = false := by rw [ha]; decide
    rw [List.cons_append, updateFirstOpen, ha2]
    simp only [Bool.false_eq_true, if_false]
    rw [ih (fun u hu => h u (List.mem_cons_of_mem a hu)) t f ht, List.cons_append]

/-- `getOpenTrade = none` means no element is open. -/
theorem getOpenTrade_none_all {l : List Trade} (h : getOpenTrade l = none) :
    ∀ t ∈ l, t.status ≠ "open" := by
  intro t ht heq
  rw [getOpenTrade, List.find?_eq_none] at h
  have := h t ht
  rw [heq] at this
  exact this (by decide)

/-- The ledger invariant is monotone in the time bound. -/
theorem LedgerInv.weaken {T T' : ℤ} (hT : T ≤ T') {l : List Trade}
    (h : LedgerInv T l) : LedgerInv T' l := by
  refine ⟨h.statuses, ?_, ?_, h.open_noexit, h.init_closed, h.chron⟩
  · intro t ht
    exact le_trans (h.entry_le t ht) hT
  · intro t ht hc
    obtain ⟨x, hx, hlt, hle⟩ := h.closed_exit t ht hc
    exact ⟨x, hx, hlt, le_trans hle hT⟩

/-- The exit-check half of a `backtest.js` step preserves the ledger
invariant, advancing the time bound to the current candle. -/
theorem checkClose_inv {T : ℤ} (c : Candle) (s : SimState)
    (h : LedgerInv T s.trades) (hc : T < c.timestamp) :
    LedgerInv c.timestamp (checkClose c s).trades := by
  cases hfind : getOpenTrade s.trades with
  | none =>
    rw [checkClose, hfind]
    exact h.weaken hc.le
  | some t =>
    cases hexit : evalExit c t with
    | none =>
      simp only [checkClose, hfind, hexit]
      exact h.weaken hc.le
    | some pr =>
      obtain ⟨px, r⟩ := pr
      by_cases hpx : px ≠ 0
      swap
      · simp only [checkClose, hfind, hexit]
        rw [if_neg hpx]
        exact h.weaken hc.le
      simp only [checkClose, hfind, hexit]
      rw [if_pos hpx]
      obtain ⟨hsplit, hopen⟩ := getOpenTrade_split s.trades h.init_closed t hfind
      have hupd : updateFirstOpen s.trades
          (closeUpdate c px ((px - t.entryPrice) * t.size *
            (if t.signal = "LONG" then 1 else -1))) =
          s.trades.dropLast ++ [closeUpdate c px ((px - t.entryPrice) * t.size *
            (if t.signal = "LONG" then 1 else -1)) t] := by
        conv_lhs => rw [hsplit]
        exact updateFirstOpen_concat _ h.init_closed t _ hopen
      dsimp only
      rw [hupd]
      have hsub : ∀ u ∈ s.trades.dropLast, u ∈ s.trades :=
        fun u hu => (List.dropLast_sublist s.trades).subset hu
      have htmem : t ∈ s.trades := by
        rw [hsplit]
        exact List.mem_append_right _ (List.mem_singleton.mpr rfl)
      have hchron := h.chron
      rw [hsplit, List.pairwise_append] at hchron
      constructor
      · intro u hu
        rcases List.mem_append.mp hu with hu | hu
        · exact Or.inr (h.init_closed u hu)
        · rw [List.mem_singleton.mp hu]
          exact Or.inr rfl
      · intro u hu
        rcases List.mem_append.mp hu with hu | hu
        · exact le_trans (h.entry_le u (hsub u hu)) hc.le
        · rw [List.mem_singleton.mp hu]
          exact le_trans (h.entry_le t htmem) hc.le
      · intro u hu hcl
        rcases List.mem_append.mp hu with hu | hu
        · obtain ⟨x, hx, hlt, hle⟩ := h.closed_exit u (hsub u hu) hcl
          exact ⟨x, hx, hlt, le_trans hle hc.le⟩
        · rw [List.mem_singleton.mp hu]
          exact ⟨c.timestamp, rfl, lt_of_le_of_lt (h.entry_le t htmem) hc, le_refl _⟩
      · intro u hu hop
        rcases List.mem_append.mp hu with hu | hu
        · have := h.init_closed u hu
          rw [this] at hop
          exact absurd hop (by decide)
        · rw [List.mem_singleton.mp hu] at hop
          simp only [closeUpdate] at hop
          exact absurd hop (by decide)
      · rw [List.dropLast_concat]
        exact h.init_closed
      · rw [List.pairwise_append]
        refine ⟨hchron.1, List.pairwise_singleton _ _, ?_⟩
        intro a ha b hb x hx
        rw [List.mem_singleton.mp hb]
        exact hchron.2.2 a ha t (List.mem_singleton.mpr rfl) x hx

/-- The entry-attempt half of a `backtest.js` step preserves the ledger
invariant at the current candle's time bound. -/
theorem tryOpen_inv (cfg : RMConfig) (thr : ℚ) (w : List Candle)
    (sig : TradingSignal) (s : SimState) (c : Candle)
    (hw : w.getLast? = some c)
    (h : LedgerInv c.timestamp s.trades) :
    LedgerInv c.timestamp (tryOpen cfg thr w sig s).trades := by
  cases hfind : getOpenTrade s.trades with
  | some u => rw [tryOpen, hfind]; exact h
  | none =>
    rw [tryOpen, hfind]
    dsimp only
    split
    swap
    · exact h
    cases hcp : calculateTradeParameters cfg s.balance w sig with
    | none => exact h
    | some p =>
      dsimp only
      split
      swap
      · exact h
      rw [hw]
      dsimp only [placeOrder]
      have hallclosed : ∀ u ∈ s.trades, u.status = "closed" := by
        intro u hu
        rcases h.statuses u hu with ho | hcl
        · exact absurd ho (getOpenTrade_none_all hfind u hu)
        · exact hcl
      constructor
      · intro u hu
        rcases List.mem_append.mp hu with hu | hu
        · exact Or.inr (hallclosed u hu)
        · rw [List.mem_singleton.mp hu]
          exact Or.inl rfl
      · intro u hu
        rcases List.mem_append.mp hu with hu | hu
        · exact h.entry_le u hu
        · rw [List.mem_singleton.mp hu]
      · intro u hu hcl
        rcases List.mem_append.mp hu with hu | hu
        · exact h.closed_exit u hu hcl
        · rw [List.mem_singleton.mp hu] at hcl
          dsimp only at hcl
          exact absurd hcl (by decide)
      · intro u hu hop
        rcases List.mem_append.mp hu with hu | hu
        · have := hallclosed u hu
          rw [this] at hop
          exact absurd hop (by decide)
        · rw [List.mem_singleton.mp hu]
      · rw [List.dropLast_concat]
        exact hallclosed
      · rw [List.pairwise_append]
        refine ⟨h.chron, List.pairwise_singleton _ _, ?_⟩
        intro a ha b hb x hx
        rw [List.mem_singleton.mp hb]
        obtain ⟨x', hx', _, hle⟩ := h.closed_exit a ha (hallclosed a ha)
        rw [hx'] at hx
        obtain rfl := Option.some.inj hx.symm
        exact hle

/-- One `backtest.js` step on a candle strictly after the current time bound
re-establishes the ledger invariant at that candle. -/
theorem backtestStep_inv {T : ℤ} (w : List Candle) (sig : TradingSignal)
    (s : SimState) (c : Candle) (hw : w.getLast? = some c)
    (h : LedgerInv T s.trades) (hc : T < c.timestamp) :
    LedgerInv c.timestamp (backtestStep w sig s).trades := by
  rw [backtestStep, hw]
  exact tryOpen_inv cfgBacktest 70 w sig _ c hw (checkClose_inv c s h hc)

/-- Every finite list of integers has a strict lower bound. -/
theorem exists_strict_lower (l : List ℤ) : ∃ T, ∀ ts ∈ l, T < ts := by
  induction l with
  | nil => exact ⟨0, by simp⟩
  | cons a l ih =>
    obtain ⟨T, hT⟩ := ih
    refine ⟨min a T - 1, ?_⟩
    intro ts hts
    rcases List.mem_cons.mp hts with rfl | hts
    · have h1 : min ts T ≤ ts := min_le_left ts T
      omega
    · have h1 : T < ts := hT ts hts
      have h2 : min a T ≤ T := min_le_right a T
      omega

/-- Folding the `backtest.js` loop over strictly time-increasing steps from
an invariant state yields an invariant state. -/
theorem runFold_inv : ∀ (steps : List (List Candle × TradingSignal))
    (s : SimState) (T : ℤ),
    LedgerInv T s.trades →
    (∀ ts ∈ stepTimes steps, T < ts) →
    (stepTimes steps).Pairwise (· < ·) →
    ∃ T', LedgerInv T'
      (steps.foldl (fun st p => backtestStep p.1 p.2 st) s).trades := by
  intro steps
  induction steps with
  | nil => intro s T h _ _; exact ⟨T, h⟩
  | cons pr rest ih =>
    intro s T h hlb hpw
    obtain ⟨w, sig⟩ := pr
    rw [List.foldl_cons]
    cases hw : w.getLast? with
    | none =>
      have hstep : backtestStep w sig s = s := by rw [backtestStep, hw]
      rw [hstep]
      have hst : stepTimes ((w, sig) :: rest) = stepTimes rest := by
        rw [stepTimes, List.filterMap_cons]
        simp only [hw, Option.map_none]
        rfl
      rw [hst] at hlb hpw
      exact ih s T h hlb hpw
    | some c =>
      have hst : stepTimes ((w, sig) :: rest) = c.timestamp :: stepTimes rest := by
        rw [stepTimes, List.filterMap_cons]
        simp only [hw, Option.map_some]
        rfl
      rw [hst] at hlb hpw
      have hc : T < c.timestamp := hlb _ (List.mem_cons_self _ _)
      have h1 := backtestStep_inv w sig s c hw h hc
      rw [List.pairwise_cons] at hpw
      exact ih _ c.timestamp h1 hpw.1 hpw.2

/-- C1: over any simulation run whose current candles have strictly
increasing timestamps, (i) after every prefix of steps at most one trade in
the log has status `open`; (ii) no two distinct archived positions have
`[entryTime, exitTime]` intervals sharing more than a boundary point; and
(iii) the entry attempt appends a trade only when `getOpenTrade()` returns
no open trade. -/
theorem single_open_and_no_overlap (steps : List (List Candle × TradingSignal))
    (hmono : (stepTimes steps).Pairwise (· < ·)) :
    (∀ n, countOpen (runBacktest (steps.take n)).trades ≤ 1) ∧
    (∀ a ∈ (runBacktest steps).trades, ∀ b ∈ (runBacktest steps).trades,
      a ≠ b → ¬ overlaps a b) ∧
    (∀ (cfg : RMConfig) (thr : ℚ) (w : List Candle) (sig : TradingSignal)
      (s : SimState),
      (tryOpen cfg thr w sig s).trades ≠ s.trades →
      getOpenTrade s.trades = none) := by
  obtain ⟨T0, hT0⟩ := exists_strict_lower (stepTimes steps)
  have hbase : LedgerInv T0 ([] : List Trade) :=
    ⟨by simp, by simp, by simp, by simp, by simp, List.Pairwise.nil⟩
  refine ⟨?_, ?_, ?_⟩
  · intro n
    have hsub : List.Sublist (stepTimes (steps.take n)) (stepTimes steps) :=
      (List.take_sublist n steps).filterMap _
    obtain ⟨T', hinv⟩ := runFold_inv (steps.take n) ⟨[], INITIAL_BALANCE⟩ T0 hbase
      (fun ts hts => hT0 ts (hsub.subset hts)) (hmono.sublist hsub)
    rw [runBacktest]
    exact countOpen_le_one _ hinv.init_closed
  · obtain ⟨T', hinv⟩ := runFold_inv steps ⟨[], INITIAL_BALANCE⟩ T0 hbase hT0 hmono
    have hpair : (runBacktest steps).trades.Pairwise (fun a b => ¬ overlaps a b) := by
      rw [runBacktest]
      refine hinv.chron.imp ?_
      intro a b hrel hov
      obtain ⟨xa, xb, hxa, hxb, hm⟩ := hov
      have h1 : xa ≤ b.entryTime := hrel xa hxa
      have h2 : b.entryTime ≤ max a.entryTime b.entryTime := le_max_right _ _
      have h3 : min xa xb ≤ xa := min_le_left _ _
      omega
    have hsymm : Symmetric (fun a b : Trade => ¬ overlaps a b) := by
      intro x y hxy hov
      apply hxy
      obtain ⟨xa, xb, h1, h2, hm⟩ := hov
      refine ⟨xb, xa, h2, h1, ?_⟩
      omega
    intro a ha b hb hne
    exact List.Pairwise.forall hsymm hpair ha hb hne
  · intro cfg thr w sig s hne
    cases hfind : getOpenTrade s.trades with
    | none => rfl
    | some u =>
      have heq : tryOpen cfg thr w sig s = s := by rw [tryOpen, hfind]
      exact absurd (congrArg SimState.trades heq) hne

/-- Witness for C1 on a one-step run whose oracle replies HOLD: the
hypothesis (strictly increasing step times) holds, and the conclusions
follow from the theorem. -/
theorem single_open_and_no_overlap_witness :
    (stepTimes [([⟨1, 2, 5, 1, 3, 4⟩], ⟨"HOLD", some 0, "w1", some 0⟩)]).Pairwise
      (· < ·) ∧
    ((∀ n, countOpen (runBacktest
        ([([⟨1, 2, 5, 1, 3, 4⟩], ⟨"HOLD", some 0, "w1", some 0⟩)].take n)).trades ≤ 1) ∧
    (∀ a ∈ (runBacktest
        [([⟨1, 2, 5, 1, 3, 4⟩], ⟨"HOLD", some 0, "w1", some 0⟩)]).trades,
      ∀ b ∈ (runBacktest
        [([⟨1, 2, 5, 1, 3, 4⟩], ⟨"HOLD", some 0, "w1", some 0⟩)]).trades,
      a ≠ b → ¬ overlaps a b) ∧
    (∀ (cfg : RMConfig) (thr : ℚ) (w : List Candle) (sig : TradingSignal)
      (s : SimState),
      (tryOpen cfg thr w sig s).trades ≠ s.trades →
      getOpenTrade s.trades = none)) :=
  ⟨by simp [stepTimes],
    single_open_and_no_overlap
      [([⟨1, 2, 5, 1, 3, 4⟩], ⟨"HOLD", some 0, "w1", some 0⟩)]
      (by simp [stepTimes])⟩

/-- C10: over any simulation run whose current candles have strictly
increasing timestamps, every closed position's exit time is strictly later
than its entry time: the exit check runs before any entry within a step, so
a position opened on one bar can close only on a strictly later bar. -/
theorem exit_strictly_after_entry (steps : List (List Candle × TradingSignal))
    (hmono : (stepTimes steps).Pairwise (· < ·)) :
    ∀ t ∈ (runBacktest steps).trades, t.status = "closed" →
      ∀ x, t.exitTime = some x → t.entryTime < x := by
  obtain ⟨T0, hT0⟩ := exists_strict_lower (stepTimes steps)
  have hbase : LedgerInv T0 ([] : List Trade) :=
    ⟨by simp, by simp, by simp, by simp, by simp, List.Pairwise.nil⟩
  obtain ⟨T', hinv⟩ := runFold_inv steps ⟨[], INITIAL_BALANCE⟩ T0 hbase hT0 hmono
  rw [runBacktest]
  intro t ht hcl x hx
  obtain ⟨x', hx', hlt, _⟩ := hinv.closed_exit t ht hcl
  rw [hx'] at hx
  obtain rfl := Option.some.inj hx
  exact hlt

/-- Witness for C10 on a one-step run whose oracle replies HOLD. -/
theorem exit_strictly_after_entry_witness :
    (stepTimes [([⟨2, 0, 9, 1, 4, 0⟩], ⟨"HOLD", some 0, "w2", some 0⟩)]).Pairwise
      (· < ·) ∧
    (∀ t ∈ (runBacktest
        [([⟨2, 0, 9, 1, 4, 0⟩], ⟨"HOLD", some 0, "w2", some 0⟩)]).trades,
      t.status = "closed" → ∀ x, t.exitTime = some x → t.entryTime < x) :=
  ⟨by simp [stepTimes],
    exit_strictly_after_entry
      [([⟨2, 0, 9, 1, 4, 0⟩], ⟨"HOLD", some 0, "w2", some 0⟩)]
      (by simp [stepTimes])⟩
